import Mathlib

/-!
Shallow embedding of the stock-tracker service in combined_app.py.

The server side of the program consists of:
* class StockDataManager (lines 21-38): two optional fields, current_price and
  last_update, and an async method get_stock_price that queries yfinance for
  the latest close of a fixed symbol, updates both fields on success and
  returns the price, and returns None on empty data or on any caught exception;
* a single module-level instance stock_manager (line 41) shared by every
  request handler;
* websocket_endpoint (lines 43-66): an infinite per-connection loop that calls
  stock_manager.get_stock_price, sends the price formatted to two decimals on
  success, falls back to the last known price (Python truthiness test) or the
  sentinel string on failure, and terminates on any exception from the send;
* health_check (lines 68-75): returns status, last_price and last_update.

Prices and timestamps are modelled as rationals, exceptions raised inside the
try block of get_stock_price as an explicit environment outcome, and the
broadcast loop as a recursion over a finite list of per-tick environments.
-/

/-- State of the StockDataManager instance (combined_app.py lines 22-24):
current_price and last_update both start as None. -/
structure StockDataManager where
  current_price : Option ℚ
  last_update : Option ℚ
deriving DecidableEq, Repr

/-- The freshly constructed manager (lines 23-24): both fields None. -/
def StockDataManager.init : StockDataManager := ⟨none, none⟩

/-- Environment outcome of the yfinance interaction inside get_stock_price.
raises covers every exception point inside the try block (Ticker construction,
the network call in ticker.history, the float conversion); each of these
occurs before the assignments to current_price and last_update, so a raise
leaves the state untouched. history rows gives the Close column of the
returned frame; the frame is empty exactly when rows is empty, and
the expression data with index negative one selects the last row. -/
inductive FetchOutcome where
  | raises (msg : String)
  | history (close : List ℚ)
deriving DecidableEq, Repr

/-- Body of the try block of get_stock_price (lines 28-35), before the
except handler: either an uncaught exception, or the updated state paired
with the returned value (the price on nonempty data, None on empty data). -/
def StockDataManager.get_stock_price_raw (env : FetchOutcome) (now : ℚ)
    (s : StockDataManager) : Except String (StockDataManager × Option ℚ) :=
  match env with
  | .raises msg => Except.error msg
  | .history close =>
    match close.getLast? with
    | some p => Except.ok (⟨some p, some now⟩, some p)
    | none => Except.ok (s, none)

/-- get_stock_price (lines 26-38): the try body wrapped in the
except-Exception handler, which logs and falls through to return None,
leaving the state unchanged. -/
def StockDataManager.get_stock_price (env : FetchOutcome) (now : ℚ)
    (s : StockDataManager) : StockDataManager × Option ℚ :=
  match StockDataManager.get_stock_price_raw env now s with
  | Except.error _ => (s, none)
  | Except.ok r => r

/-- Round a rational to a whole number of cents, ties to even: the rounding
performed by the Python fixed-point format with two fraction digits, stated
on the numerator and denominator so that it evaluates by kernel reduction.
With N = 100 * num and D = den > 0, n is the floor of 100 * q and
2 * (N - n * D) compared against D decides whether the fractional part of
100 * q is below, above, or exactly one half. -/
def roundHalfEvenCents (q : ℚ) : ℤ :=
  let N : ℤ := q.num * 100
  let D : ℤ := (q.den : ℤ)
  let n : ℤ := Int.fdiv N D
  let r2 : ℤ := 2 * (N - n * D)
  if r2 < D then n
  else if D < r2 then n + 1
  else if n % 2 = 0 then n else n + 1

/-- Render a natural number below 100 on exactly two digits. -/
def pad2 (n : ℕ) : String :=
  if n < 10 then "0" ++ toString n else toString n

/-- The Python format specifier .2f applied to a price: sign, integer part,
decimal point, exactly two fraction digits. -/
def format2 (q : ℚ) : String :=
  (if roundHalfEvenCents q < 0 then "-" else "") ++
    toString ((roundHalfEvenCents q).natAbs / 100) ++ "." ++
    pad2 ((roundHalfEvenCents q).natAbs % 100)

/-- The else branch of the loop body (lines 54-59): Python truthiness of
stock_manager.current_price, so None and the float zero both fall to the
sentinel string, and any other stored price is formatted and sent. -/
def fallbackFrame (s : StockDataManager) : String :=
  match s.current_price with
  | some l => if l ≠ 0 then format2 l else "0.00"
  | none => "0.00"

/-- One iteration of the while loop before the sleep (lines 50-59): call
get_stock_price, then choose the text frame handed to send_text. Returns the
state after the call together with the frame. -/
def tick (s : StockDataManager) (env : FetchOutcome) (now : ℚ) :
    StockDataManager × String :=
  let r := StockDataManager.get_stock_price env now s
  match r.2 with
  | some p => (r.1, format2 p)
  | none => (r.1, fallbackFrame r.1)

/-- Environment of one tick of the broadcast loop: the fetch outcome, the
clock value, and whether send_text completes (sendOk false covers both
WebSocketDisconnect and any other exception raised by the send). -/
structure TickEnv where
  fetch : FetchOutcome
  now : ℚ
  sendOk : Bool
deriving DecidableEq, Repr

/-- Observable outcome of a run of the broadcast loop: the frames the client
actually received, the final manager state, and how many adapter calls the
loop performed. -/
structure LoopResult where
  frames : List String
  state : StockDataManager
  fetches : ℕ
deriving DecidableEq, Repr

/-- The while-True loop of websocket_endpoint (lines 49-66), driven by a
finite list of tick environments. A tick whose send fails raises out of the
loop: the frame is not delivered, the except handlers only log (they send
nothing), and no later tick runs. Exhausting the list means the connection
is still live and the loop still running. -/
def runLoop (s : StockDataManager) : List TickEnv → LoopResult
  | [] => ⟨[], s, 0⟩
  | e :: rest =>
    let t := tick s e.fetch e.now
    if e.sendOk then
      let r := runLoop t.1 rest
      ⟨t.2 :: r.frames, r.state, r.fetches + 1⟩
    else
      ⟨[], t.1, 1⟩

/-- Response of the health endpoint (lines 68-75). -/
structure HealthResponse where
  status : String
  last_price : Option ℚ
  last_update : Option ℚ
deriving DecidableEq, Repr

/-- health_check (lines 68-75): reads the global manager and returns its two
fields unchanged, together with a constant status string; the state it leaves
behind is the state it was given. -/
def health_check (s : StockDataManager) : StockDataManager × HealthResponse :=
  (s, ⟨"healthy", s.current_price, s.last_update⟩)

/-- A tick event in a run with several live connections: which connection's
loop executes the tick, plus the fetch outcome and clock value. Because
stock_manager (line 41) is a single module-level object, every connection's
loop reads and writes the same state. -/
structure ConnTickEnv where
  conn : ℕ
  fetch : FetchOutcome
  now : ℚ
deriving DecidableEq, Repr

/-- Interleaved execution of several connections' broadcast loops over the
single shared stock_manager: each event runs one tick of the named
connection's loop on the global state and pushes the frame to that
connection. -/
def runShared (s : StockDataManager) : List ConnTickEnv → List (ℕ × String)
  | [] => []
  | e :: rest =>
    let t := tick s e.fetch e.now
    (e.conn, t.2) :: runShared t.1 rest

/-- The frames connection c receives in an interleaved run over the shared
global state, started from the fresh manager. -/
def framesFor (c : ℕ) (events : List ConnTickEnv) : List String :=
  (runShared StockDataManager.init events).filterMap
    fun p => if p.1 = c then some p.2 else none

/-- The spec's model of the same run, stated for comparison: each
connection's loop owns an independent LastKnownPrice, initialized empty when
the loop starts, so connection c's frames are those of its own ticks run
alone from the fresh state. -/
def framesOwnState (c : ℕ) (events : List ConnTickEnv) : List String :=
  (runShared StockDataManager.init (events.filter fun e => e.conn = c)).map
    Prod.snd

/-- The shared global state after a list of interleaved tick events. -/
def stateAfterShared (s : StockDataManager) (events : List ConnTickEnv) :
    StockDataManager :=
  events.foldl (fun s e => (tick s e.fetch e.now).1) s

/-- States of the global manager reachable in the running program: the fresh
state, followed by any sequence of broadcast-loop ticks. get_stock_price,
called from tick, is the only code that writes the state; health_check only
reads it. -/
inductive ReachableState : StockDataManager → Prop where
  | init : ReachableState StockDataManager.init
  | step (env : FetchOutcome) (now : ℚ) {s : StockDataManager} :
      ReachableState s → ReachableState (tick s env now).1

/-! ### Helper lemmas shared by the claim theorems -/

theorem get_stock_price_state_of_none (env : FetchOutcome) (now : ℚ)
    (s : StockDataManager)
    (h : (StockDataManager.get_stock_price env now s).2 = none) :
    (StockDataManager.get_stock_price env now s).1 = s := by
  cases env with
  | raises msg => rfl
  | history close =>
    cases hl : close.getLast? with
    | none =>
      simp [StockDataManager.get_stock_price, StockDataManager.get_stock_price_raw, hl]
    | some p =>
      simp [StockDataManager.get_stock_price, StockDataManager.get_stock_price_raw, hl] at h

theorem get_stock_price_eq_of_some (env : FetchOutcome) (now : ℚ)
    (s : StockDataManager) (P : ℚ)
    (h : (StockDataManager.get_stock_price env now s).2 = some P) :
    StockDataManager.get_stock_price env now s = (⟨some P, some now⟩, some P) := by
  cases env with
  | raises msg =>
    simp [StockDataManager.get_stock_price, StockDataManager.get_stock_price_raw] at h
  | history close =>
    cases hl : close.getLast? with
    | none =>
      simp [StockDataManager.get_stock_price, StockDataManager.get_stock_price_raw, hl] at h
    | some p =>
      simp [StockDataManager.get_stock_price, StockDataManager.get_stock_price_raw, hl] at h ⊢
      simp [h]

theorem tick_fst (s : StockDataManager) (env : FetchOutcome) (now : ℚ) :
    (tick s env now).1 = (StockDataManager.get_stock_price env now s).1 := by
  cases h : (StockDataManager.get_stock_price env now s).2 <;> simp [tick, h]

theorem format2_zero : format2 0 = "0.00" := by decide

theorem tick_frame_shape (s : StockDataManager) (env : FetchOutcome) (now : ℚ) :
    (tick s env now).2 = "0.00" ∨ ∃ p : ℚ, (tick s env now).2 = format2 p := by
  cases h : (StockDataManager.get_stock_price env now s).2 with
  | some p => right; exact ⟨p, by simp [tick, h]⟩
  | none =>
    have : (tick s env now).2
        = fallbackFrame (StockDataManager.get_stock_price env now s).1 := by
      simp [tick, h]
    rw [this]
    cases hc : (StockDataManager.get_stock_price env now s).1.current_price with
    | none => left; simp [fallbackFrame, hc]
    | some l =>
      by_cases hz : l = 0
      · left; simp [fallbackFrame, hc, hz]
      · right; exact ⟨l, by simp [fallbackFrame, hc, hz]⟩

theorem runLoop_frames_shape (s : StockDataManager) (envs : List TickEnv) :
    ∀ f ∈ (runLoop s envs).frames, f = "0.00" ∨ ∃ p : ℚ, f = format2 p := by
  induction envs generalizing s with
  | nil => intro f hf; simp [runLoop] at hf
  | cons e rest ih =>
    intro f hf
    by_cases hs : e.sendOk
    · simp [runLoop, hs] at hf
      rcases hf with hf | hf
      · rw [hf]; exact tick_frame_shape s e.fetch e.now
      · exact ih _ f hf
    · simp [runLoop, hs] at hf

/-! ### Claim theorems -/

/-- Claim C1 is refuted on the code: stock_manager is a single module-level
object (line 41), so two connections' loops share one LastKnownPrice. In the
concrete interleaving where connection 1 first fetches the price five and
connection 2 then hits a fetch failure, connection 2 receives the frame for
connection 1's price instead of the sentinel its own independent empty state
would produce, so its frames do depend on another connection's fetch. -/
theorem cross_connection_interference :
    framesFor 2 [⟨1, FetchOutcome.history [5], 0⟩,
        ⟨2, FetchOutcome.raises ("err"), 1⟩]
      ≠ framesOwnState 2 [⟨1, FetchOutcome.history [5], 0⟩,
        ⟨2, FetchOutcome.raises ("err"), 1⟩] := by
  decide

/-- Claim C1 as amended: LastKnownPrice is a single process-wide value shared
by every connection. In an interleaved run the result of any appended tick is
the broadcast tick applied to the global state folded over all earlier
events, whichever connection produced them; the connection id only addresses
the frame, so a connection's frames can reflect prices fetched by another
connection's loop. -/
theorem runShared_uses_global_state (s : StockDataManager)
    (pre : List ConnTickEnv) (c : ℕ) (fetch : FetchOutcome) (now : ℚ) :
    runShared s (pre ++ [⟨c, fetch, now⟩]) =
      runShared s pre ++ [(c, (tick (stateAfterShared s pre) fetch now).2)] := by
  induction pre generalizing s with
  | nil => simp [runShared, stateAfterShared]
  | cons x xs ih =>
    simp only [List.cons_append, runShared, stateAfterShared, List.foldl_cons,
      List.append_eq]
    rw [ih]
    rfl

/-- Claim C2: on a tick of the broadcast loop whose fetch succeeds with price
P greater than zero, the frame handed to send_text is P formatted to two
fraction digits, and the stored LastKnownPrice (current_price, together with
last_update) becomes P. -/
theorem success_tick_frame_and_state (s : StockDataManager)
    (env : FetchOutcome) (now P : ℚ) (hpos : 0 < P)
    (h : (StockDataManager.get_stock_price env now s).2 = some P) :
    tick s env now = (⟨some P, some now⟩, format2 P) := by
  have h' := get_stock_price_eq_of_some env now s P h
  simp [tick, h']

theorem success_tick_frame_and_state_witness :
    tick StockDataManager.init (FetchOutcome.history [5]) 7
      = (⟨some 5, some 7⟩, format2 5) :=
  success_tick_frame_and_state StockDataManager.init (FetchOutcome.history [5])
    7 5 (by decide) (by decide)

/-- Claim C3: on a tick of the broadcast loop whose fetch fails, the frame
handed to send_text is the stored LastKnownPrice formatted to two fraction
digits when one is stored, and the sentinel string when none is stored. The
Python truthiness test sends the raw sentinel when the stored price is the
number zero, but that string coincides with zero formatted to two
decimals. -/
theorem failure_tick_frame (s : StockDataManager) (env : FetchOutcome)
    (now : ℚ)
    (h : (StockDataManager.get_stock_price env now s).2 = none) :
    (∀ L, s.current_price = some L → (tick s env now).2 = format2 L) ∧
    (s.current_price = none → (tick s env now).2 = "0.00") := by
  have hs := get_stock_price_state_of_none env now s h
  constructor
  · intro L hL
    by_cases hz : L = 0
    · subst hz
      rw [format2_zero]
      simp [tick, h, hs, fallbackFrame, hL]
    · simp [tick, h, hs, fallbackFrame, hL, hz]
  · intro h0
    simp [tick, h, hs, fallbackFrame, h0]

theorem failure_tick_frame_witness :
    (tick ⟨some 3, some 1⟩ (FetchOutcome.raises ("boom")) 2).2 = format2 3 :=
  (failure_tick_frame ⟨some 3, some 1⟩ (FetchOutcome.raises ("boom")) 2
    rfl).1 3 rfl

/-- Claim C4 is refuted: get_stock_price performs no positivity check on the
fetched close value. When the data source returns a nonempty frame whose
last close is zero, the adapter returns it as a success even though zero is
not a positive price. -/
theorem get_stock_price_zero_close_success :
    (StockDataManager.get_stock_price (FetchOutcome.history [0]) 0
        StockDataManager.init).2 = some 0 ∧ ¬ (0 : ℚ) < 0 := by
  constructor
  · rfl
  · decide

/-- Claim C4 as amended: for every call the adapter returns either a failure
indicator or exactly the data source's latest close value; it passes that
value through without checking its sign, so the returned price is positive
exactly when the source's close is. -/
theorem get_stock_price_returns_close_or_none (env : FetchOutcome) (now : ℚ)
    (s : StockDataManager) :
    (StockDataManager.get_stock_price env now s).2 = none ∨
    ∃ close P, env = FetchOutcome.history close ∧ close.getLast? = some P ∧
      (StockDataManager.get_stock_price env now s).2 = some P := by
  cases env with
  | raises msg => left; rfl
  | history close =>
    cases hl : close.getLast? with
    | none =>
      left
      simp [StockDataManager.get_stock_price, StockDataManager.get_stock_price_raw, hl]
    | some p =>
      right
      exact ⟨close, p, rfl, hl,
        by simp [StockDataManager.get_stock_price, StockDataManager.get_stock_price_raw, hl]⟩

/-- Claim C5: the except-Exception handler of get_stock_price converts every
exception raised by the try body (lookup, network, parse) into the failure
result with the state unchanged, so the caller always receives either a
price or None and never sees the exception. -/
theorem get_stock_price_handles_exception (env : FetchOutcome) (now : ℚ)
    (s : StockDataManager) (msg : String)
    (h : StockDataManager.get_stock_price_raw env now s = Except.error msg) :
    StockDataManager.get_stock_price env now s = (s, none) := by
  simp [StockDataManager.get_stock_price, h]

theorem get_stock_price_handles_exception_witness :
    StockDataManager.get_stock_price (FetchOutcome.raises ("timeout")) 0
        StockDataManager.init = (StockDataManager.init, none) :=
  get_stock_price_handles_exception (FetchOutcome.raises ("timeout")) 0
    StockDataManager.init ("timeout") rfl

/-- Claim C6: a tick whose fetch fails leaves the shared state exactly as it
was: current_price and last_update keep their previous values, and the
fallback branch only reads current_price. -/
theorem failure_tick_preserves_state (s : StockDataManager)
    (env : FetchOutcome) (now : ℚ)
    (h : (StockDataManager.get_stock_price env now s).2 = none) :
    (tick s env now).1.current_price = s.current_price ∧
    (tick s env now).1.last_update = s.last_update := by
  have hs := get_stock_price_state_of_none env now s h
  constructor <;> simp [tick, h, hs]

theorem failure_tick_preserves_state_witness :
    (tick ⟨some 9, some 4⟩ (FetchOutcome.history []) 5).1.current_price = some 9 ∧
    (tick ⟨some 9, some 4⟩ (FetchOutcome.history []) 5).1.last_update = some 4 :=
  failure_tick_preserves_state ⟨some 9, some 4⟩ (FetchOutcome.history []) 5 rfl

/-- Claim C7: a tick whose send fails (disconnect or any other send error)
ends the loop: the ticks after it contribute nothing to the run, so no
further fetch and no further send happen, and every frame the client ever
received is a price frame or the sentinel, never an error payload. -/
theorem send_failure_ends_loop (s : StockDataManager) (pre : List TickEnv)
    (e : TickEnv) (post : List TickEnv) (h : e.sendOk = false) :
    runLoop s (pre ++ e :: post) = runLoop s (pre ++ [e]) ∧
    ∀ f ∈ (runLoop s (pre ++ e :: post)).frames,
      f = "0.00" ∨ ∃ p : ℚ, f = format2 p := by
  refine ⟨?_, fun f hf => runLoop_frames_shape s _ f hf⟩
  induction pre generalizing s with
  | nil => simp [runLoop, h]
  | cons x xs ih =>
    simp only [List.cons_append, runLoop, List.append_eq]
    rw [ih]

theorem send_failure_ends_loop_witness :
    runLoop StockDataManager.init
        (⟨FetchOutcome.history [5], 0, false⟩ ::
          [⟨FetchOutcome.history [7], 1, true⟩])
      = runLoop StockDataManager.init [⟨FetchOutcome.history [5], 0, false⟩] :=
  (send_failure_ends_loop StockDataManager.init []
    ⟨FetchOutcome.history [5], 0, false⟩
    [⟨FetchOutcome.history [7], 1, true⟩] rfl).1

/-- Claim C8: the health endpoint returns exactly the stored last known
price and last-update timestamp (None when no fetch has succeeded yet),
plus a constant status string, and leaves the state exactly as given. -/
theorem health_check_reads_only (s : StockDataManager) :
    (health_check s).1 = s ∧
    (health_check s).2.last_price = s.current_price ∧
    (health_check s).2.last_update = s.last_update ∧
    (health_check s).2.status = "healthy" :=
  ⟨rfl, rfl, rfl, rfl⟩

/-- Claim C9: two consecutive ticks whose fetches both succeed with the same
price P push the identical frame on each tick, leave LastKnownPrice equal to
P, and the loop completes both ticks normally (both adapter calls
happen, nothing crashes). -/
theorem repeated_success_idempotent (s : StockDataManager) (e₁ e₂ : TickEnv)
    (P : ℚ)
    (h₁ : (StockDataManager.get_stock_price e₁.fetch e₁.now s).2 = some P)
    (h₂ : (StockDataManager.get_stock_price e₂.fetch e₂.now
        (⟨some P, some e₁.now⟩ : StockDataManager)).2 = some P)
    (hs₁ : e₁.sendOk = true) (hs₂ : e₂.sendOk = true) :
    (runLoop s [e₁, e₂]).frames = [format2 P, format2 P] ∧
    (runLoop s [e₁, e₂]).state.current_price = some P ∧
    (runLoop s [e₁, e₂]).fetches = 2 := by
  have t₁ := get_stock_price_eq_of_some e₁.fetch e₁.now s P h₁
  have t₂ := get_stock_price_eq_of_some e₂.fetch e₂.now _ P h₂
  refine ⟨?_, ?_, ?_⟩ <;> simp [runLoop, tick, t₁, t₂, hs₁, hs₂]

theorem repeated_success_idempotent_witness :
    (runLoop StockDataManager.init
        [⟨FetchOutcome.history [5], 0, true⟩,
          ⟨FetchOutcome.history [5], 1, true⟩]).frames
      = [format2 5, format2 5] ∧
    (runLoop StockDataManager.init
        [⟨FetchOutcome.history [5], 0, true⟩,
          ⟨FetchOutcome.history [5], 1, true⟩]).state.current_price = some 5 ∧
    (runLoop StockDataManager.init
        [⟨FetchOutcome.history [5], 0, true⟩,
          ⟨FetchOutcome.history [5], 1, true⟩]).fetches = 2 :=
  repeated_success_idempotent StockDataManager.init
    ⟨FetchOutcome.history [5], 0, true⟩ ⟨FetchOutcome.history [5], 1, true⟩ 5
    rfl rfl rfl rfl

/-- Claim C10: in every state of the global manager reachable by the running
program (the fresh state followed by any sequence of broadcast ticks, the
only writers), current_price is unset exactly when last_update is unset:
both start as None, a failed fetch changes neither, and a successful fetch
assigns both together. -/
theorem reachable_price_iff_timestamp (s : StockDataManager)
    (h : ReachableState s) :
    (s.current_price = none ↔ s.last_update = none) := by
  induction h with
  | init => simp [StockDataManager.init]
  | step env now hr ih =>
    rename_i s'
    cases hq : (StockDataManager.get_stock_price env now s').2 with
    | none =>
      have hst := get_stock_price_state_of_none env now s' hq
      rw [tick_fst, hst]
      exact ih
    | some p =>
      have hst := get_stock_price_eq_of_some env now s' p hq
      rw [tick_fst, hst]
      simp

theorem reachable_price_iff_timestamp_witness :
    ((tick StockDataManager.init (FetchOutcome.history [5]) 1).1.current_price
        = none ↔
      (tick StockDataManager.init (FetchOutcome.history [5]) 1).1.last_update
        = none) :=
  reachable_price_iff_timestamp _
    (ReachableState.step (FetchOutcome.history [5]) 1 ReachableState.init)
